import Mathlib

/-!
# Verification of the API-Automation repository's core components

This file gives a shallow embedding, in Lean 4, of the two testable core
components of the repository:

* the structural JSON validator `validateAgainstSchema` / `validateProperty`
  from `src/schemas/response-schemas.ts`, and
* the URL/query-string builder `buildUrl` and response normalization of the
  HTTP façade from `src/utils/api-client.ts`,

together with theorems settling the specification's claims about them.

JavaScript runtime values are modelled by the inductive type `JsValue`;
numbers are modelled by rationals (`Rat`), which supports the
`Number.isInteger` distinction the validator relies on.  Statements that can
throw a JavaScript `TypeError` (the `in` operator applied to `null`) are
modelled in the `Except String` monad.
-/

namespace ApiAutomation

/-- A JavaScript runtime value as it can appear in a parsed JSON response
(plus `undefined`, which can appear through property access).  Numbers are
modelled as rationals; object fields are an association list in insertion
order. -/
inductive JsValue : Type where
  | vNull : JsValue
  | vUndefined : JsValue
  | vBool : Bool → JsValue
  | vNum : Rat → JsValue
  | vStr : String → JsValue
  | vArr : List JsValue → JsValue
  | vObj : List (String × JsValue) → JsValue

/-- The JavaScript `typeof` operator, restricted to the values of `JsValue`.
Note that `typeof null`, `typeof` of an array and `typeof` of a plain object
are all the string `"object"`. -/
def typeofName : JsValue → String
  | .vNull => "object"
  | .vUndefined => "undefined"
  | .vBool _ => "boolean"
  | .vNum _ => "number"
  | .vStr _ => "string"
  | .vArr _ => "object"
  | .vObj _ => "object"

/-- `Array.isArray`. -/
def isArrayVal : JsValue → Bool
  | .vArr _ => true
  | _ => false

/-- Whether the value is JavaScript `null` (used to state totality claims). -/
def isNullVal : JsValue → Bool
  | .vNull => true
  | _ => false

/-- JavaScript `Number.isInteger`: true exactly on number values that are
whole numbers; false on every non-number value. -/
def numberIsInteger : JsValue → Bool
  | .vNum q => q.den == 1
  | _ => false

/-- The JavaScript `in` operator, `f in v`.  It throws a `TypeError` when the
right operand is not an object (in particular for `null` and `undefined`);
for a plain object it tests key membership, for an array it tests element
indices and `"length"`. -/
def jsIn (f : String) (v : JsValue) : Except String Bool :=
  match v with
  | .vObj fields => .ok (fields.any (fun p => p.1 == f))
  | .vArr xs =>
      -- unreachable from the validator: arrays are screened out before `in` is used
      .ok (f == "length" || (match f.toNat? with
        | some i => i < xs.length
        | none => false))
  | _ => .error ("TypeError: cannot use the in operator to search for " ++ f ++ " in " ++ typeofName v)

/-- JavaScript member access `v[k]` on a plain object (the only shape on
which the validator performs it, guarded by the `in` operator): the first
binding for `k`, or `undefined` when absent. -/
def jsGet (v : JsValue) (k : String) : JsValue :=
  match v with
  | .vObj fields =>
      match fields.find? (fun p => p.1 == k) with
      | some p => p.2
      | none => .vUndefined
  | _ => .vUndefined

/-- A schema node as consumed by the validator: the `type` tag plus the three
optional members the validator reads (`properties`, `required`, `items`).
The source schemas also carry `format` and `enum` members; the validator
never reads them, so they are not modelled. -/
inductive SchemaNode : Type where
  | mk : String → Option (List (String × SchemaNode)) → Option (List String) →
      Option SchemaNode → SchemaNode

/-- The `type` member of a schema node. -/
def SchemaNode.type : SchemaNode → String
  | .mk t _ _ _ => t

/-- The `properties` member of a schema node (`none` models absence). -/
def SchemaNode.properties : SchemaNode → Option (List (String × SchemaNode))
  | .mk _ p _ _ => p

/-- The `required` member of a schema node (`none` models absence). -/
def SchemaNode.required : SchemaNode → Option (List String)
  | .mk _ _ r _ => r

/-- The `items` member of a schema node (`none` models absence). -/
def SchemaNode.items : SchemaNode → Option SchemaNode
  | .mk _ _ _ i => i

/-- The result record of `validateAgainstSchema`. -/
structure ValidationResult : Type where
  valid : Bool
  errors : List String
deriving Repr, DecidableEq

/-- `validateProperty(value, schema)` from `src/schemas/response-schemas.ts`
(lines 147–161): a single `if`/`else if` chain on `schema.type` that pushes
at most one type-mismatch error.  It never recurses into `properties` or
`items`, and it has no branch for the `boolean` (or `object`) tag. -/
def validateProperty (value : JsValue) (schema : SchemaNode) : List String :=
  if schema.type == "string" && !(typeofName value == "string") then
    ["Expected string but got " ++ typeofName value]
  else if schema.type == "integer" && !(numberIsInteger value) then
    ["Expected integer but got " ++ typeofName value]
  else if schema.type == "number" && !(typeofName value == "number") then
    ["Expected number but got " ++ typeofName value]
  else if schema.type == "array" && !(isArrayVal value) then
    ["Expected array but got " ++ typeofName value]
  else []

/-- The `for (const field of schema.required)` loop of
`validateAgainstSchema` (lines 126–130): each field absent from `response`
contributes one "Missing required field" message, in iteration order.  The
`field in response` test can throw (for `null`). -/
def requiredErrors (response : JsValue) : List String → Except String (List String)
  | [] => .ok []
  | f :: rest =>
      match jsIn f response with
      | .error e => .error e
      | .ok present =>
          match requiredErrors response rest with
          | .error e => .error e
          | .ok tail => .ok (if present then tail else ("Missing required field: " ++ f) :: tail)

/-- The `for (const [key, propSchema] of Object.entries(schema.properties))`
loop of `validateAgainstSchema` (lines 135–140): each key present in
`response` contributes the errors of `validateProperty` on its value, in
insertion order.  The `key in response` test can throw (for `null`). -/
def propertyErrors (response : JsValue) : List (String × SchemaNode) → Except String (List String)
  | [] => .ok []
  | (key, propSchema) :: rest =>
      match jsIn key response with
      | .error e => .error e
      | .ok present =>
          let here := if present then validateProperty (jsGet response key) propSchema else []
          match propertyErrors response rest with
          | .error e => .error e
          | .ok tail => .ok (here ++ tail)

/-- `validateAgainstSchema(response, schema)` from
`src/schemas/response-schemas.ts` (lines 115–145).  Only an `object` type
tag triggers any checking; any other tag falls through to
`{ valid: errors.length === 0, errors }` with `errors` still empty.  A
throwing statement is modelled by the `Except.error` case. -/
def validateAgainstSchema (response : JsValue) (schema : SchemaNode) :
    Except String ValidationResult :=
  if schema.type == "object" then
    if !(typeofName response == "object") || isArrayVal response then
      .ok ⟨false, ["Expected object but got " ++ typeofName response]⟩
    else
      match (match schema.required with
             | some req => requiredErrors response req
             | none => .ok []) with
      | .error e => .error e
      | .ok reqErrs =>
          match (match schema.properties with
                 | some props => propertyErrors response props
                 | none => .ok []) with
          | .error e => .error e
          | .ok propErrs =>
              let errors := reqErrs ++ propErrs
              .ok ⟨errors.length == 0, errors⟩
  else
    .ok ⟨true, []⟩

/-- A schema node carrying only a type tag (e.g. `{ type: "string" }`). -/
def stringNode : SchemaNode := .mk ("string") none none none

/-- A schema node `{ type: "integer" }` (possible `enum`/`format` members are
never read by the validator). -/
def integerNode : SchemaNode := .mk ("integer") none none none

/-- The `weight` sub-schema shared by `ImageSchema`'s breed entries. -/
def weightNode : SchemaNode :=
  .mk ("object") (some [("imperial", stringNode), ("metric", stringNode)]) none none

/-- `ImageSchema` from `src/schemas/response-schemas.ts` (lines 5–54).  The
`format` member on `url` and the `enum` member on `vote.value` are never read
by the validator and are not modelled. -/
def ImageSchema : SchemaNode :=
  .mk ("object")
    (some [
      ("id", stringNode),
      ("url", stringNode),
      ("width", integerNode),
      ("height", integerNode),
      ("breeds", .mk ("array") none none (some (.mk ("object")
        (some [
          ("id", stringNode),
          ("name", stringNode),
          ("temperament", stringNode),
          ("origin", stringNode),
          ("country_codes", stringNode),
          ("life_span", stringNode),
          ("weight", weightNode)])
        none none))),
      ("favourite", .mk ("object")
        (some [
          ("id", integerNode),
          ("user_id", stringNode),
          ("image_id", stringNode),
          ("created_at", stringNode)])
        none none),
      ("vote", .mk ("object")
        (some [
          ("id", integerNode),
          ("user_id", stringNode),
          ("image_id", stringNode),
          ("created_at", stringNode),
          ("value", integerNode)])
        none none)])
    (some ["id", "url", "width", "height"])
    none

/-! ## The HTTP façade (`src/utils/api-client.ts`) -/

/-- Whether a value is JavaScript `null` or `undefined` — the test
`value !== undefined && value !== null` of `buildUrl` (line 131), negated. -/
def isNullOrUndefined : JsValue → Bool
  | .vNull => true
  | .vUndefined => true
  | _ => false

/-- The JavaScript `String()` conversion as applied to the scalar values
that occur in query-parameter mappings (the spec restricts the mapping to
"string key → scalar value").  Whole-number numerics print without a
fractional part.  Arrays and objects never occur as parameter values in this
repository; they are mapped to the generic object placeholder. -/
def jsString : JsValue → String
  | .vNull => "null"
  | .vUndefined => "undefined"
  | .vBool b => if b then ("true") else ("false")
  | .vNum q => if q.den == 1 then toString q.num else toString q
  | .vStr s => s
  | .vArr _ => "[object Object]"
  | .vObj _ => "[object Object]"

/-- Uppercase hexadecimal digit for `n < 16`. -/
def hexDigit (n : Nat) : Char :=
  if n < 10 then Char.ofNat (48 + n) else Char.ofNat (55 + n)

/-- The percent-escape `%XX` of one byte. -/
def percentByte (b : Nat) : String :=
  String.mk ['%', hexDigit (b / 16), hexDigit (b % 16)]

/-- The UTF-8 bytes of a Unicode code point. -/
def utf8Bytes (n : Nat) : List Nat :=
  if n < 128 then [n]
  else if n < 2048 then [192 + n / 64, 128 + n % 64]
  else if n < 65536 then [224 + n / 4096, 128 + (n / 64) % 64, 128 + n % 64]
  else [240 + n / 262144, 128 + (n / 4096) % 64, 128 + (n / 64) % 64, 128 + n % 64]

/-- The bytes left unescaped by the `application/x-www-form-urlencoded`
serializer used by `URLSearchParams.toString()`: ASCII alphanumerics and
`*`, `-`, `.`, `_`. -/
def isFormUnreserved (b : Nat) : Bool :=
  (48 ≤ b && b ≤ 57) || (65 ≤ b && b ≤ 90) || (97 ≤ b && b ≤ 122) ||
    b == 42 || b == 45 || b == 46 || b == 95

/-- Form-url-encoding of one byte: space becomes `+`, unreserved bytes stand
for themselves, everything else is percent-escaped. -/
def formEncodeByte (b : Nat) : String :=
  if b == 32 then ("+")
  else if isFormUnreserved b then String.mk [Char.ofNat b]
  else percentByte b

/-- Form-url-encoding of a string (UTF-8 bytes, each encoded). -/
def formEncode (s : String) : String :=
  String.join (s.data.map fun c => String.join ((utf8Bytes c.toNat).map formEncodeByte))

/-- `URLSearchParams.toString()` on an appended list of (name, value)
pairs: each pair serialized as `name=value` with both sides form-url-encoded,
pairs joined by `&`; the empty list serializes to the empty string. -/
def searchParamsToString (pairs : List (String × String)) : String :=
  String.intercalate ("&") (pairs.map fun p => formEncode p.1 ++ "=" ++ formEncode p.2)

/-- The `Object.entries(params).forEach` loop of `buildUrl` (lines 130–134):
keys with `undefined`/`null` values are skipped, every other value is
appended as `String(value)`, in insertion order. -/
def serializeParams : List (String × JsValue) → List (String × String)
  | [] => []
  | (key, value) :: rest =>
      if isNullOrUndefined value then serializeParams rest
      else (key, jsString value) :: serializeParams rest

/-- `buildUrl(endpoint, params?, apiKey?)` from `src/utils/api-client.ts`
(lines 121–139).  The `if (apiKey)` truthiness test makes an empty string
behave like an absent key. -/
def buildUrl (baseURL endpoint : String) (params : Option (List (String × JsValue)))
    (apiKey : Option String) : String :=
  let baseUrl := baseURL ++ endpoint
  let keyPairs : List (String × String) :=
    match apiKey with
    | some k => if k == "" then [] else [("api_key", k)]
    | none => []
  let paramPairs : List (String × String) :=
    match params with
    | some ps => serializeParams ps
    | none => []
  let queryString := searchParamsToString (keyPairs ++ paramPairs)
  if queryString == "" then baseUrl else baseUrl ++ "?" ++ queryString

/-- The part of the transport response that `makeRequest` reads (status,
status text, headers; the body is modelled separately since it goes through
`parseResponseBody`). -/
structure TransportResponse : Type where
  status : Nat
  statusText : String
  headers : List (String × String)

/-- Modelled from the spec: the Playwright `APIResponse.ok()` accessor is
library code outside `src/`; per the spec, `ok` "is always exactly
`200 <= status < 300`". -/
def transportOk (status : Nat) : Bool :=
  decide (200 ≤ status) && decide (status < 300)

/-- The `ApiResponse` record built by `makeRequest` (lines 62–68 of
`src/utils/api-client.ts`). -/
structure ApiResponse : Type where
  status : Nat
  statusText : String
  headers : List (String × String)
  body : JsValue
  ok : Bool

/-- The normalization step of `makeRequest` (lines 62–68): the returned
record copies status, status text, headers and parsed body from the
transport response and derives `ok` from it. -/
def makeRequestResult (t : TransportResponse) (body : JsValue) : ApiResponse :=
  { status := t.status
    statusText := t.statusText
    headers := t.headers
    body := body
    ok := transportOk t.status }

/-- `ApiAssertions.assertSuccess` (lines 174–179 of the assertions module):
the conjunction of the three expectations it checks. -/
def assertSuccess (r : ApiResponse) : Prop :=
  r.ok = true ∧ 200 ≤ r.status ∧ r.status < 300

/-! ## State-passing instrumentation of the validator

To settle the frame claim (the validator never mutates its input schema),
the validator is re-run in a form that threads the schema through every
step that touches it and reassembles the schema the caller observes after
the call.  A step that wrote to the schema would surface here as a changed
component. -/

/-- `validateProperty`, threading the property sub-schema: the source body
only ever reads `schema.type`, so the schema handed back to the caller is
the one received. -/
def validatePropertySt (value : JsValue) (schema : SchemaNode) : List String × SchemaNode :=
  (validateProperty value schema, schema)

/-- The properties loop, threading the `properties` list: each entry is
rebuilt from the sub-schema handed back by `validatePropertySt`. -/
def propertyErrorsSt (response : JsValue) :
    List (String × SchemaNode) → Except String (List String) × List (String × SchemaNode)
  | [] => (.ok [], [])
  | (key, propSchema) :: rest =>
      match jsIn key response with
      | .error e => (.error e, (key, propSchema) :: rest)
      | .ok present =>
          let pr := if present then validatePropertySt (jsGet response key) propSchema
                    else ([], propSchema)
          match propertyErrorsSt response rest with
          | (.error e, restOut) => (.error e, (key, pr.2) :: restOut)
          | (.ok tail, restOut) => (.ok (pr.1 ++ tail), (key, pr.2) :: restOut)

/-- `validateAgainstSchema`, threading the schema: the schema observed after
the call is reassembled from the components each step hands back. -/
def validateAgainstSchemaSt (response : JsValue) (schema : SchemaNode) :
    Except String ValidationResult × SchemaNode :=
  match schema with
  | .mk t props req items =>
    if t == "object" then
      if !(typeofName response == "object") || isArrayVal response then
        (.ok ⟨false, ["Expected object but got " ++ typeofName response]⟩, .mk t props req items)
      else
        let reqRes := match req with
          | some r => requiredErrors response r
          | none => .ok []
        match reqRes with
        | .error e => (.error e, .mk t props req items)
        | .ok reqErrs =>
          match props with
          | some ps =>
            match propertyErrorsSt response ps with
            | (.error e, psOut) => (.error e, .mk t (some psOut) req items)
            | (.ok propErrs, psOut) =>
                let errors := reqErrs ++ propErrs
                (.ok ⟨errors.length == 0, errors⟩, .mk t (some psOut) req items)
          | none =>
              let errors := reqErrs ++ []
              (.ok ⟨errors.length == 0, errors⟩, .mk t props req items)
    else (.ok ⟨true, []⟩, .mk t props req items)

/-! ## Conformance

A specification-side notion of a value conforming to a schema, read off the
description of the intended validator in the spec (required fields all
present, declared properties recursively conformant, array elements
conformant to the declared element schema, primitive tags matching the
runtime kind).  It is used to state the soundness claim. -/

/-- First bound value for key `k` in an object field list. -/
def lookupField (fields : List (String × JsValue)) (k : String) : Option JsValue :=
  match fields.find? (fun p => p.1 == k) with
  | some p => some p.2
  | none => none

/-- `Conforms v s`: the value `v` structurally conforms to the schema `s`.
For an object-tagged schema this requires `v` to be a non-array, non-null
object containing every required field whose declared properties, when
present, recursively conform to their sub-schemas. -/
inductive Conforms : JsValue → SchemaNode → Prop where
  | object (t : String) (fields : List (String × JsValue))
      (props : Option (List (String × SchemaNode)))
      (req : Option (List String)) (items : Option SchemaNode)
      (ht : t = "object")
      (hreq : ∀ f ∈ req.getD [], fields.any (fun p => p.1 == f) = true)
      (hprops : ∀ k cs fv, (k, cs) ∈ props.getD [] → lookupField fields k = some fv →
        Conforms fv cs) :
      Conforms (.vObj fields) (.mk t props req items)
  | array (t : String) (xs : List JsValue) (props : Option (List (String × SchemaNode)))
      (req : Option (List String)) (items : Option SchemaNode)
      (ht : t = "array")
      (helem : ∀ e, items = some e → ∀ x ∈ xs, Conforms x e) :
      Conforms (.vArr xs) (.mk t props req items)
  | string (t : String) (v : JsValue) (props : Option (List (String × SchemaNode)))
      (req : Option (List String)) (items : Option SchemaNode)
      (ht : t = "string")
      (h : typeofName v = "string") :
      Conforms v (.mk t props req items)
  | integer (t : String) (v : JsValue) (props : Option (List (String × SchemaNode)))
      (req : Option (List String)) (items : Option SchemaNode)
      (ht : t = "integer")
      (h : numberIsInteger v = true) :
      Conforms v (.mk t props req items)
  | number (t : String) (v : JsValue) (props : Option (List (String × SchemaNode)))
      (req : Option (List String)) (items : Option SchemaNode)
      (ht : t = "number")
      (h : typeofName v = "number") :
      Conforms v (.mk t props req items)
  | boolean (t : String) (v : JsValue) (props : Option (List (String × SchemaNode)))
      (req : Option (List String)) (items : Option SchemaNode)
      (ht : t = "boolean")
      (h : typeofName v = "boolean") :
      Conforms v (.mk t props req items)

/-! ## Derived characterizations

Independent (loop-free) descriptions of what the two validator loops
compute, used to state the claims; the theorems below prove that the loops
agree with them. -/

/-- The missing-required-field messages for an object value: one message per
required name absent from the field list, in the iteration order of the
required list. -/
def missingMsgs (fields : List (String × JsValue)) (req : List String) : List String :=
  (req.filter fun f => !(fields.any fun p => p.1 == f)).map
    fun f => "Missing required field: " ++ f

/-- The property-loop messages for an object value: the concatenation, in
insertion order of the declared properties, of the shallow
`validateProperty` errors of each property present in the value, with no
prefix added. -/
def shallowPropErrors (fields : List (String × JsValue))
    (props : List (String × SchemaNode)) : List String :=
  props.flatMap fun p =>
    if fields.any (fun q => q.1 == p.1) then
      validateProperty (jsGet (.vObj fields) p.1) p.2
    else []

/-! ## Helper lemmas -/

/-- On a plain object the required-fields loop never throws and produces
exactly the missing-field messages, in iteration order. -/
theorem requiredErrors_vObj (fields : List (String × JsValue)) (req : List String) :
    requiredErrors (.vObj fields) req = .ok (missingMsgs fields req) := by
  induction req with
  | nil => rfl
  | cons f rest ih =>
      unfold requiredErrors
      simp only [jsIn]
      rw [ih]
      unfold missingMsgs
      rw [List.filter_cons]
      cases h : fields.any (fun p => p.1 == f) with
      | true => simp [h, missingMsgs]
      | false => simp [h, missingMsgs]

/-- On a plain object the properties loop never throws and produces exactly
the concatenated shallow per-property errors, in insertion order. -/
theorem propertyErrors_vObj (fields : List (String × JsValue))
    (props : List (String × SchemaNode)) :
    propertyErrors (.vObj fields) props = .ok (shallowPropErrors fields props) := by
  induction props with
  | nil => rfl
  | cons p rest ih =>
      obtain ⟨k, cs⟩ := p
      unfold propertyErrors
      simp only [jsIn]
      rw [ih]
      unfold shallowPropErrors
      rw [List.flatMap_cons]

/-- Full characterization of `validateAgainstSchema` on a plain object
against an object-tagged schema: the error list is the missing-field
messages followed by the shallow property errors, and `valid` is their
emptiness. -/
theorem validateAgainstSchema_vObj (fields : List (String × JsValue))
    (props : Option (List (String × SchemaNode))) (req : Option (List String))
    (items : Option SchemaNode) :
    validateAgainstSchema (.vObj fields) (.mk ("object") props req items) =
      .ok ⟨(missingMsgs fields (req.getD []) ++ shallowPropErrors fields (props.getD [])).length == 0,
           missingMsgs fields (req.getD []) ++ shallowPropErrors fields (props.getD [])⟩ := by
  unfold validateAgainstSchema
  cases req with
  | none =>
      cases props with
      | none => simp [SchemaNode.type, SchemaNode.required, SchemaNode.properties,
          typeofName, isArrayVal, missingMsgs, shallowPropErrors]
      | some ps => simp [SchemaNode.type, SchemaNode.required, SchemaNode.properties,
          typeofName, isArrayVal, missingMsgs, propertyErrors_vObj]
  | some r =>
      cases props with
      | none => simp [SchemaNode.type, SchemaNode.required, SchemaNode.properties,
          typeofName, isArrayVal, shallowPropErrors, requiredErrors_vObj]
      | some ps => simp [SchemaNode.type, SchemaNode.required, SchemaNode.properties,
          typeofName, isArrayVal, requiredErrors_vObj, propertyErrors_vObj]

/-- The head of a list does not change when appending on the right. -/
theorem head?_append_of_head? {α : Type} (l₁ l₂ : List α) (c : α)
    (h : l₁.head? = some c) : (l₁ ++ l₂).head? = some c := by
  cases l₁ with
  | nil => simp at h
  | cons a l => simpa using h

/-- Every message the required-fields loop can produce starts with the
letter M. -/
theorem missing_msg_head (f : String) :
    ("Missing required field: " ++ f).data.head? = some 'M' := by
  rw [String.data_append]
  exact head?_append_of_head? _ _ _ rfl

/-- Every message `validateProperty` can produce starts with the letter E. -/
theorem validateProperty_head {v : JsValue} {s : SchemaNode} {e : String}
    (h : e ∈ validateProperty v s) : e.data.head? = some 'E' := by
  unfold validateProperty at h
  split at h
  · rw [List.mem_singleton] at h
    subst h
    rw [String.data_append]
    exact head?_append_of_head? _ _ _ rfl
  · split at h
    · rw [List.mem_singleton] at h
      subst h
      rw [String.data_append]
      exact head?_append_of_head? _ _ _ rfl
    · split at h
      · rw [List.mem_singleton] at h
        subst h
        rw [String.data_append]
        exact head?_append_of_head? _ _ _ rfl
      · split at h
        · rw [List.mem_singleton] at h
          subst h
          rw [String.data_append]
          exact head?_append_of_head? _ _ _ rfl
        · simp at h

/-- A `validateProperty` message is never a missing-required-field
message. -/
theorem validateProperty_ne_missing {v : JsValue} {s : SchemaNode} {e : String}
    (f : String) (h : e ∈ validateProperty v s) :
    e ≠ "Missing required field: " ++ f := by
  intro he
  have h1 := validateProperty_head h
  rw [he] at h1
  have h2 := missing_msg_head f
  rw [h1] at h2
  exact absurd (Option.some.inj h2) (by decide)

/-- A conformant value passes the shallow per-property type check with no
errors. -/
theorem conforms_validateProperty_nil {v : JsValue} {s : SchemaNode}
    (h : Conforms v s) : validateProperty v s = [] := by
  cases h with
  | object t fields props req items ht hreq hprops =>
      subst ht
      simp [validateProperty, SchemaNode.type]
  | array t xs props req items ht helem =>
      subst ht
      simp [validateProperty, SchemaNode.type, isArrayVal]
  | string t v props req items ht h =>
      subst ht
      simp [validateProperty, SchemaNode.type, h]
  | integer t v props req items ht h =>
      subst ht
      simp [validateProperty, SchemaNode.type, h]
  | number t v props req items ht h =>
      subst ht
      simp [validateProperty, SchemaNode.type, h]
  | boolean t v props req items ht h =>
      subst ht
      simp [validateProperty, SchemaNode.type]

/-- A successful key-membership test on an object yields a first binding,
and member access returns exactly that binding. -/
theorem any_imp_lookup (fields : List (String × JsValue)) (k : String)
    (h : fields.any (fun q => q.1 == k) = true) :
    ∃ fv, lookupField fields k = some fv ∧ jsGet (.vObj fields) k = fv := by
  have hs : (fields.find? (fun p => p.1 == k)).isSome = true := by
    rw [List.find?_isSome]
    rwa [List.any_eq_true] at h
  obtain ⟨pr, hpr⟩ := Option.isSome_iff_exists.mp hs
  exact ⟨pr.2, by simp [lookupField, hpr], by simp [jsGet, hpr]⟩

/-- When every required name is a key of the object, the required-fields
loop produces no messages. -/
theorem missingMsgs_nil (fields : List (String × JsValue)) (req : List String)
    (h : ∀ f ∈ req, fields.any (fun p => p.1 == f) = true) :
    missingMsgs fields req = [] := by
  unfold missingMsgs
  rw [List.filter_eq_nil_iff.mpr]
  · rfl
  · intro f hf
    rw [h f hf]
    decide

/-- When every declared property present in the object conforms to its
sub-schema, the properties loop produces no messages. -/
theorem shallowPropErrors_nil (fields : List (String × JsValue))
    (props : List (String × SchemaNode))
    (h : ∀ k cs fv, (k, cs) ∈ props → lookupField fields k = some fv → Conforms fv cs) :
    shallowPropErrors fields props = [] := by
  unfold shallowPropErrors
  rw [List.flatMap_eq_nil_iff.mpr]
  intro p hp
  obtain ⟨k, cs⟩ := p
  cases hany : fields.any (fun q => q.1 == k) with
  | false => simp [hany]
  | true =>
      obtain ⟨fv, hl, hg⟩ := any_imp_lookup fields k hany
      simp only [hany, if_true]
      rw [hg]
      exact conforms_validateProperty_nil (h k cs fv hp hl)

/-- C4 (confirmed): for every object-tagged schema and every JSON object
that contains every required field and whose declared properties each
conform to their sub-schema, `validateAgainstSchema` returns `valid = true`
with an empty error list. -/
theorem validateAgainstSchema_sound (fields : List (String × JsValue))
    (props : Option (List (String × SchemaNode))) (req : Option (List String))
    (items : Option SchemaNode)
    (h : Conforms (.vObj fields) (.mk ("object") props req items)) :
    validateAgainstSchema (.vObj fields) (.mk ("object") props req items) =
      .ok ⟨true, []⟩ := by
  cases h with
  | object t fields props req items ht hreq hprops =>
      rw [validateAgainstSchema_vObj]
      rw [missingMsgs_nil fields _ hreq, shallowPropErrors_nil fields _ hprops]
      rfl
  | string t v props req items ht h =>
      exact absurd ht (by decide)
  | integer t v props req items ht h =>
      exact absurd ht (by decide)
  | number t v props req items ht h =>
      exact absurd ht (by decide)
  | boolean t v props req items ht h =>
      exact absurd ht (by decide)

/-- Witness for C4 at a concrete conformant input. -/
theorem validateAgainstSchema_sound_witness :
    validateAgainstSchema (.vObj [("id", .vStr ("abc"))])
        (.mk ("object") (some [("id", stringNode)]) (some ["id"]) none) =
      .ok ⟨true, []⟩ := by
  apply validateAgainstSchema_sound
  refine Conforms.object _ _ _ _ _ rfl (by decide) ?_
  intro k cs fv hmem hlook
  rw [Option.getD_some] at hmem
  rw [List.mem_singleton] at hmem
  rw [Prod.mk.injEq] at hmem
  obtain ⟨hk, hcs⟩ := hmem
  subst hk
  subst hcs
  simp only [lookupField, List.find?] at hlook
  rw [show (("id" : String) == "id") = true from rfl] at hlook
  simp only [Option.some.injEq] at hlook
  subst hlook
  exact Conforms.string _ _ _ _ _ rfl rfl

/-- C1 (counterexample): the claim predicts that a present property whose
child schema is object-tagged is recursively validated, so that the missing
required field `x` of the nested object would be reported.  In fact the
top-level validation accepts the value with no errors, even though
recursively validating the property value against the child schema yields
exactly that error. -/
theorem nested_object_errors_not_appended :
    validateAgainstSchema (.vObj [("a", .vObj [])])
        (.mk ("object") (some [("a", .mk ("object") none (some ["x"]) none)]) none none) =
      .ok ⟨true, []⟩ ∧
    validateAgainstSchema (jsGet (.vObj [("a", .vObj [])]) "a")
        (.mk ("object") none (some ["x"]) none) =
      .ok ⟨false, ["Missing required field: x"]⟩ :=
  ⟨rfl, rfl⟩

/-- C1 (amended): for an object-tagged schema and a non-array object value,
each present declared property contributes, unprefixed and in the mapping's
insertion order, only the errors of the shallow `validateProperty` type
check on its value; there is no recursion, and an object-tagged child schema
contributes no errors at all. -/
theorem propertyLoop_shallow (fields : List (String × JsValue))
    (props : Option (List (String × SchemaNode))) (req : Option (List String))
    (items : Option SchemaNode) :
    validateAgainstSchema (.vObj fields) (.mk ("object") props req items) =
      .ok ⟨(missingMsgs fields (req.getD []) ++ shallowPropErrors fields (props.getD [])).length == 0,
           missingMsgs fields (req.getD []) ++ shallowPropErrors fields (props.getD [])⟩ ∧
    propertyErrors (.vObj fields) (props.getD []) =
      .ok (shallowPropErrors fields (props.getD [])) ∧
    (∀ (v : JsValue) (p : Option (List (String × SchemaNode))) (r : Option (List String))
        (i : Option SchemaNode), validateProperty v (.mk ("object") p r i) = []) :=
  ⟨validateAgainstSchema_vObj fields props req items,
   propertyErrors_vObj fields (props.getD []),
   fun v p r i => by simp [validateProperty, SchemaNode.type]⟩

/-- C2 (counterexample): the claim predicts that the elements of an
array-valued property are recursively validated against the declared element
schema, so the non-string element `42` would make validation fail.  In fact
the top-level validation accepts the value with no errors, even though the
element fails the element schema. -/
theorem array_elements_not_validated :
    validateAgainstSchema (.vObj [("xs", .vArr [.vNum 42])])
        (.mk ("object") (some [("xs", .mk ("array") none none (some stringNode))]) none none) =
      .ok ⟨true, []⟩ ∧
    validateProperty (.vNum 42) stringNode = ["Expected string but got number"] :=
  ⟨rfl, rfl⟩

/-- C2 (amended): for an array-tagged property schema, a non-array value
produces exactly one error and an array value produces no errors at all —
the declared element schema is ignored and elements are never validated. -/
theorem array_property_shallow (v : JsValue)
    (p : Option (List (String × SchemaNode))) (r : Option (List String))
    (i : Option SchemaNode) :
    validateProperty v (.mk ("array") p r i) =
      (if isArrayVal v then [] else ["Expected array but got " ++ typeofName v]) := by
  simp only [validateProperty, SchemaNode.type]
  cases h : isArrayVal v with
  | true => simp [h]
  | false => simp [h]

/-- C3 (counterexample): the claim predicts a type-mismatch error
"Expected boolean but got number" for a boolean-tagged property holding `5`,
and predicts that an array value under a string tag is reported as
"array".  In fact the boolean tag produces no check at all, and the actual
kind of an array is reported via `typeof`, i.e. as "object". -/
theorem boolean_unchecked_and_array_reported_as_object :
    validateProperty (.vNum 5) (.mk ("boolean") none none none) = [] ∧
    validateProperty (.vArr []) stringNode = ["Expected string but got object"] :=
  ⟨rfl, rfl⟩

/-- C3 (amended): for the string, integer and number tags a mismatched value
produces exactly one error "Expected [tag] but got [typeof-kind]", where the
reported actual kind is the `typeof` kind — an array is reported as
"object"; the integer tag fails exactly on values that are not whole-number
numerics; the boolean tag is never checked and produces no errors. -/
theorem primitive_tag_checks (v : JsValue)
    (p : Option (List (String × SchemaNode))) (r : Option (List String))
    (i : Option SchemaNode) :
    (validateProperty v (.mk ("string") p r i) =
      (if typeofName v == "string" then [] else ["Expected string but got " ++ typeofName v])) ∧
    (validateProperty v (.mk ("integer") p r i) =
      (if numberIsInteger v then [] else ["Expected integer but got " ++ typeofName v])) ∧
    (validateProperty v (.mk ("number") p r i) =
      (if typeofName v == "number" then [] else ["Expected number but got " ++ typeofName v])) ∧
    (validateProperty v (.mk ("boolean") p r i) = []) ∧
    (∀ xs : List JsValue, typeofName (.vArr xs) = "object") ∧
    (numberIsInteger v = true ↔ ∃ q, v = .vNum q ∧ q.den = 1) := by
  refine ⟨?_, ?_, ?_, ?_, fun xs => rfl, ?_⟩
  · simp only [validateProperty, SchemaNode.type]
    cases h : typeofName v == "string" with
    | true => simp [h]
    | false => simp [h]
  · simp only [validateProperty, SchemaNode.type]
    cases h : numberIsInteger v with
    | true => simp [h]
    | false => simp [h]
  · simp only [validateProperty, SchemaNode.type]
    cases h : typeofName v == "number" with
    | true => simp [h]
    | false => simp [h]
  · simp [validateProperty, SchemaNode.type]
  · cases v <;> simp [numberIsInteger]

/-- C9 (confirmed): a top-level schema whose type tag is anything other
than "object" makes `validateAgainstSchema` return `valid = true` with an
empty error list, whatever the value. -/
theorem validateAgainstSchema_non_object (v : JsValue) (s : SchemaNode)
    (h : (s.type == "object") = false) :
    validateAgainstSchema v s = .ok ⟨true, []⟩ := by
  unfold validateAgainstSchema
  rw [h]
  simp

/-- Witness for C9: an array-tagged top-level schema accepts a number. -/
theorem validateAgainstSchema_non_object_witness :
    ((SchemaNode.mk ("array") none none (some stringNode)).type == "object") = false ∧
    validateAgainstSchema (.vNum 3) (.mk ("array") none none (some stringNode)) =
      .ok ⟨true, []⟩ :=
  ⟨rfl, validateAgainstSchema_non_object _ _ rfl⟩

/-- C7 (confirmed): for an object-tagged schema whose required names are
duplicate-free and a non-array object value missing the required field `f`,
validation is invalid and the full error list contains the message
"Missing required field: f" exactly once, with the missing-field messages
appearing first, in the iteration order of the required list. -/
theorem missing_required_reported_once (fields : List (String × JsValue))
    (props : Option (List (String × SchemaNode))) (req : List String)
    (items : Option SchemaNode) (f : String)
    (hnd : req.Nodup) (hf : f ∈ req)
    (habs : fields.any (fun p => p.1 == f) = false) :
    validateAgainstSchema (.vObj fields) (.mk ("object") props (some req) items) =
      .ok ⟨false, missingMsgs fields req ++ shallowPropErrors fields (props.getD [])⟩ ∧
    (missingMsgs fields req ++ shallowPropErrors fields (props.getD [])).count
      ("Missing required field: " ++ f) = 1 := by
  have hE := validateAgainstSchema_vObj fields props (some req) items
  rw [Option.getD_some] at hE
  have hinj : Function.Injective (fun g : String => "Missing required field: " ++ g) := by
    intro a b hab
    have hd := congrArg String.data hab
    rw [String.data_append, String.data_append] at hd
    exact String.ext (List.append_cancel_left hd)
  have hpred : (fun g => !(fields.any fun p => p.1 == g)) f = true := by
    show (!(fields.any fun p => p.1 == f)) = true
    rw [habs]
    rfl
  have h1 : (missingMsgs fields req).count ("Missing required field: " ++ f) = 1 := by
    unfold missingMsgs
    rw [List.count_map_of_injective _ _ hinj f]
    exact (@List.count_filter String _ _ (fun g => !fields.any fun p => p.1 == g) f req
      hpred).trans (List.count_eq_one_of_mem hnd hf)
  have h2 : (shallowPropErrors fields (props.getD [])).count
      ("Missing required field: " ++ f) = 0 := by
    rw [List.count_eq_zero]
    intro hmem
    unfold shallowPropErrors at hmem
    rw [List.mem_flatMap] at hmem
    obtain ⟨p, hp, hmem⟩ := hmem
    cases hany : fields.any (fun q => q.1 == p.1) with
    | false => simp [hany] at hmem
    | true =>
        simp only [hany, if_true] at hmem
        exact validateProperty_ne_missing f hmem rfl
  have hcount : (missingMsgs fields req ++ shallowPropErrors fields (props.getD [])).count
      ("Missing required field: " ++ f) = 1 := by
    rw [List.count_append, h1, h2]
  refine ⟨?_, hcount⟩
  have hlen : ((missingMsgs fields req ++ shallowPropErrors fields (props.getD [])).length == 0)
      = false := by
    rw [beq_eq_false_iff_ne]
    intro h0
    rw [List.length_eq_zero] at h0
    rw [h0] at hcount
    simp at hcount
  rw [hE, hlen]

/-- Witness for C7 at a concrete input: an empty object against a schema
requiring the field id. -/
theorem missing_required_reported_once_witness :
    (["id"].Nodup ∧ "id" ∈ ["id"] ∧
      (([] : List (String × JsValue)).any (fun p => p.1 == "id")) = false) ∧
    (validateAgainstSchema (.vObj []) (.mk ("object") none (some ["id"]) none) =
      .ok ⟨false, missingMsgs [] ["id"] ++ shallowPropErrors [] ((none).getD [])⟩ ∧
    (missingMsgs [] ["id"] ++ shallowPropErrors [] ((none).getD [])).count
      ("Missing required field: " ++ "id") = 1) :=
  ⟨⟨by decide, by decide, rfl⟩,
   missing_required_reported_once [] none ["id"] none ("id") (by decide) (by decide) rfl⟩

/-- C10 (counterexample): validating `null` against `ImageSchema` does not
return a ValidationResult — the `in` test of the first required field throws
a TypeError, because `typeof null` is "object" and `null` is not an array,
so `null` reaches the required-fields loop. -/
theorem validateAgainstSchema_null_throws :
    validateAgainstSchema .vNull ImageSchema =
      .error ("TypeError: cannot use the in operator to search for id in object") := rfl

/-- C10 (amended): for every schema (object-tagged or not) and every value
other than `null`, `validateAgainstSchema` returns a ValidationResult
without throwing. -/
theorem validateAgainstSchema_total_non_null (v : JsValue) (s : SchemaNode)
    (h : isNullVal v = false) :
    ∃ r, validateAgainstSchema v s = .ok r := by
  obtain ⟨t, props, req, items⟩ := s
  cases hb : (t == "object") with
  | false =>
      refine ⟨⟨true, []⟩, ?_⟩
      unfold validateAgainstSchema
      simp [SchemaNode.type, hb]
  | true =>
      have ht : t = "object" := eq_of_beq hb
      subst ht
      cases v with
      | vNull => simp [isNullVal] at h
      | vObj fields => exact ⟨_, validateAgainstSchema_vObj fields props req items⟩
      | vUndefined => exact ⟨_, rfl⟩
      | vBool b => exact ⟨_, rfl⟩
      | vNum q => exact ⟨_, rfl⟩
      | vStr s => exact ⟨_, rfl⟩
      | vArr xs => exact ⟨_, rfl⟩

/-- Witness for C10 at a concrete non-null input. -/
theorem validateAgainstSchema_total_non_null_witness :
    isNullVal (.vStr ("hello")) = false ∧
    ∃ r, validateAgainstSchema (.vStr ("hello")) ImageSchema = .ok r :=
  ⟨rfl, validateAgainstSchema_total_non_null (.vStr ("hello")) ImageSchema rfl⟩

/-- The instrumented properties loop computes the same errors as the plain
one and hands the properties list back unchanged. -/
theorem propertyErrorsSt_eq (resp : JsValue) (ps : List (String × SchemaNode)) :
    propertyErrorsSt resp ps = (propertyErrors resp ps, ps) := by
  induction ps with
  | nil => rfl
  | cons p rest ih =>
      obtain ⟨k, cs⟩ := p
      unfold propertyErrorsSt propertyErrors
      cases hj : jsIn k resp with
      | error e => simp [hj]
      | ok present =>
          simp only [hj, ih]
          cases hr : propertyErrors resp rest with
          | error e => cases present <;> simp [validatePropertySt]
          | ok tail => cases present <;> simp [validatePropertySt]

/-- C8 (confirmed): the validator never mutates its input schema — the
schema component handed back by the instrumented run is the schema that was
passed in, node for node, and the instrumented run computes the same result
as the validator. -/
theorem validator_preserves_schema (v : JsValue) (s : SchemaNode) :
    (validateAgainstSchemaSt v s).2 = s ∧
    (validateAgainstSchemaSt v s).1 = validateAgainstSchema v s := by
  obtain ⟨t, props, req, items⟩ := s
  unfold validateAgainstSchemaSt validateAgainstSchema
  simp only [SchemaNode.type, SchemaNode.required, SchemaNode.properties]
  cases hb : (t == "object") with
  | false => simp [hb]
  | true =>
      simp only [hb, if_true]
      cases hc : (!(typeofName v == "object") || isArrayVal v) with
      | true => simp
      | false =>
          simp only [Bool.false_eq_true, if_false]
          cases req with
          | none =>
              cases props with
              | none => simp
              | some ps =>
                  cases hp : propertyErrors v ps with
                  | error e => simp [propertyErrorsSt_eq, hp]
                  | ok propErrs => simp [propertyErrorsSt_eq, hp]
          | some r =>
              cases hr : requiredErrors v r with
              | error e => simp [hr]
              | ok reqErrs =>
                  cases props with
                  | none => simp [hr]
                  | some ps =>
                      cases hp : propertyErrors v ps with
                      | error e => simp [propertyErrorsSt_eq, hr, hp]
                      | ok propErrs => simp [propertyErrorsSt_eq, hr, hp]

/-- C5 (confirmed): query-parameter serialization drops every key whose
value is null or undefined and stringifies the remaining values in
insertion order; on the concrete parameter map of the claim the built URL
carries the query string limit=5 and order=RAND, with no page key. -/
theorem buildUrl_omits_null_undefined :
    (∀ ps : List (String × JsValue),
        serializeParams ps = ps.filterMap fun p =>
          if isNullOrUndefined p.2 then none else some (p.1, jsString p.2)) ∧
    buildUrl ("https://api.thecatapi.com/v1") ("/images/search")
        (some [("limit", .vNum 5), ("page", .vUndefined), ("order", .vStr ("RAND"))]) none =
      "https://api.thecatapi.com/v1/images/search?limit=5&order=RAND" ∧
    "limit=5&order=RAND".data <:+:
      (buildUrl ("https://api.thecatapi.com/v1") ("/images/search")
        (some [("limit", .vNum 5), ("page", .vUndefined), ("order", .vStr ("RAND"))]) none).data ∧
    ¬ ("page".data <:+:
      (buildUrl ("https://api.thecatapi.com/v1") ("/images/search")
        (some [("limit", .vNum 5), ("page", .vUndefined), ("order", .vStr ("RAND"))]) none).data) := by
  refine ⟨?_, by decide, by decide, by decide⟩
  intro ps
  induction ps with
  | nil => rfl
  | cons p rest ih =>
      obtain ⟨k, v⟩ := p
      unfold serializeParams
      rw [List.filterMap_cons]
      cases h : isNullOrUndefined v with
      | true => simp [h, ih]
      | false => simp [h, ih]

/-- C6 (confirmed): the `ok` flag of every response record produced by the
façade equals status in [200, 300) exactly, and the success assertion holds
exactly when `ok` does.  The reason the assertion collapses to `ok` is that
its two extra status-range expectations are implied by the invariant. -/
theorem ok_iff_2xx (t : TransportResponse) (body : JsValue) :
    ((makeRequestResult t body).ok = true ↔ 200 ≤ t.status ∧ t.status < 300) ∧
    (assertSuccess (makeRequestResult t body) ↔ (makeRequestResult t body).ok = true) := by
  have hok : (makeRequestResult t body).ok = true ↔ 200 ≤ t.status ∧ t.status < 300 := by
    simp [makeRequestResult, transportOk]
  refine ⟨hok, ?_⟩
  unfold assertSuccess
  constructor
  · intro h
    exact h.1
  · intro h
    refine ⟨h, ?_, ?_⟩
    · exact (hok.mp h).1
    · exact (hok.mp h).2

end ApiAutomation
